import Mathlib

/-!
Shallow embedding of the RSS-to-Telegram bot in `src/main.py`
(module-level configuration, `enhance_with_yagpt`, `BotController.start`,
`BotController.stop`, `BotController.rss_loop`, `BotController.format_message`),
together with theorems settling the frozen claims about it.

External effects (network fetches, Telegram sends, YandexGPT calls, image
generation, clock reads) are modelled by explicit environment parameters;
the state the Python code mutates (the `stats` dict, the `sent_entries` set,
the controller flags) is passed explicitly.
-/

namespace RssBot

/-- Single-quote character, used in the HTML message template. -/
def sq : String := (Char.ofNat 39).toString

/-- A feed entry as consumed by the bot: `feedparser` entries may lack any of
the three attributes, which the code tests with `hasattr`.  Modelled with
`Option` fields. -/
structure Entry where
  title : Option String
  description : Option String
  link : Option String
deriving DecidableEq, Repr

/-- The configuration the enhancement path reads: `DISABLE_YAGPT`,
`YANDEX_API_KEY` (optional, empty string falsy) and `YANDEX_FOLDER_ID`
(defaults to the empty string, which is falsy). -/
structure Config where
  disableYagpt : Bool
  yandexApiKey : Option String
  yandexFolderId : String
deriving DecidableEq, Repr

/-- Truthiness of the Python condition
`not DISABLE_YAGPT and YANDEX_API_KEY and YANDEX_FOLDER_ID`, which gates the
enhancement call in `format_message` and the early return in
`enhance_with_yagpt`. -/
def yagptEnabled (cfg : Config) : Bool :=
  !cfg.disableYagpt &&
    (match cfg.yandexApiKey with
     | some s => s != ""
     | none => false) &&
    (cfg.yandexFolderId != "")

/-- Splits a character list at its first occurrence of the character
greater-than: returns the characters before it and the characters after it,
or `none` when it does not occur. -/
def findGt : List Char → Option (List Char × List Char)
  | [] => none
  | c :: cs =>
    if c = Char.ofNat 62 then some ([], cs)
    else
      match findGt cs with
      | some (b, a) => some (c :: b, a)
      | none => none

/-- Fuel-indexed worker for `stripTags`.  Embeds Python's
`re.sub(r'<[^>]+>', '', text)`: a match is a literal less-than, one or more
characters none of which is greater-than, then a greater-than; matches are
removed left to right.  With fuel at least the length of the list the fuel is
never exhausted. -/
def stripTagsFuel : Nat → List Char → List Char
  | 0, l => l
  | _ + 1, [] => []
  | fuel + 1, c :: cs =>
    if c = Char.ofNat 60 then
      match findGt cs with
      | some (between, after) =>
        if between.length = 0 then c :: stripTagsFuel fuel cs
        else stripTagsFuel fuel after
      | none => c :: cs
    else c :: stripTagsFuel fuel cs

/-- HTML-tag removal used on titles and descriptions
(`re.sub(r'<[^>]+>', '', text)`). -/
def stripTags (s : String) : String :=
  ⟨stripTagsFuel s.data.length s.data⟩

/-- The `clean` lambda of `format_message`:
`lambda text: re.sub(r'<[^>]+>', '', text) if text else ""`. -/
def clean (text : String) : String :=
  if text = "" then "" else stripTags text

/-- What the outside world does when `enhance_with_yagpt` runs: the POST
request raises (`requests.exceptions.RequestException`), some other step of
response handling raises (generic `Exception`), the model text contains no
brace-delimited JSON object, the extracted JSON fails to decode, or a JSON
object is decoded whose `title` / `description` keys may each be present or
absent. -/
inductive YagptEnv
  | requestError
  | processingError
  | noBraces
  | decodeError
  | parsed (title : Option String) (description : Option String)
deriving DecidableEq, Repr

/-- Truncation of the description before it is put in the prompt
(`MAX_INPUT_LENGTH = 3000`). -/
def truncInput (d : String) : String :=
  if d.length > 3000 then d.take 3000 ++ "..." else d

/-- Embeds `enhance_with_yagpt(title, description)` (src/main.py lines
220-301).  Returns the optional enhanced pair and the number of times
`stats['yagpt_errors']` was incremented during the call.  Note: the two
increments in the source sit in the `except requests.exceptions.RequestException`
and `except Exception` arms only; the no-JSON-object and JSON-decode failure
paths `return None` from inside the `try` and increment nothing. -/
def enhance_with_yagpt (cfg : Config) (title description : String)
    (env : YagptEnv) : Option (String × String) × Nat :=
  if !(yagptEnabled cfg) then (none, 0)
  else
    let description := truncInput description
    match env with
    | .requestError => (none, 1)
    | .processingError => (none, 1)
    | .noBraces => (none, 0)
    | .decodeError => (none, 0)
    | .parsed t d => (some (t.getD title, d.getD description), 0)

/-- The per-call environment of `format_message`: what the enhancement call
does and what `ImageGenerator.generate_image` returns (`some path` on
success, `none` when the generator failed or raised — it catches all of its
exceptions internally and `format_message` wraps the call in a further
`try/except`). -/
structure FormatEnv where
  yagpt : YagptEnv
  image : Option String
deriving DecidableEq, Repr

/-- How many times one `format_message` call incremented each of
`stats['yagpt_used']`, `stats['yagpt_errors']` and
`stats['images_generated']`. -/
structure FormatDelta where
  yagptUsed : Nat
  yagptErrors : Nat
  imagesGenerated : Nat
deriving DecidableEq, Repr

/-- The display truncation of the final description
(`if len(description) > 500`). -/
def trunc500 (d : String) : String :=
  if d.length > 500 then d.take 500 ++ "..." else d

/-- The fixed structural template of the published message:
`f"<b>{title}</b>\n\n{description}\n\n<a href='{link}'>🔗 Читать полностью</a>"`. -/
def mkMessage (title description link : String) : String :=
  "<b>" ++ title ++ "</b>\n\n" ++ description ++ "\n\n<a href=" ++ sq ++
    link ++ sq ++ ">🔗 Читать полностью</a>"

/-- Title default: `entry.title if hasattr(entry, 'title') else "No title"`,
then cleaned. -/
def baseTitle (e : Entry) : String :=
  clean (e.title.getD "No title")

/-- Description default: missing attribute becomes the empty string, then
cleaned. -/
def baseDescription (e : Entry) : String :=
  clean (e.description.getD "")

/-- Link default: missing attribute becomes the empty string. -/
def baseLink (e : Entry) : String :=
  e.link.getD ""

/-- The quality check on the enhancer's candidate (src/main.py lines
454-456): `new_title and len(new_title) > 10 and new_description and
len(new_description) > 30 and len(new_title) < 120 and
len(new_description) < 600`. -/
def validOutput (nt nd : String) : Bool :=
  nt != "" && decide (nt.length > 10) && nd != "" && decide (nd.length > 30)
    && decide (nt.length < 120) && decide (nd.length < 600)

/-- Embeds `BotController.format_message(entry)` (src/main.py lines 431-487).
Returns `((message, image_path), delta)` where `delta` records the statistics
increments made during the call.  Validation of the enhancer output accepts
only when the new title is truthy with length strictly between 10 and 120 and
the new description is truthy with length strictly between 30 and 600; on
rejection only a warning is logged (no counter is touched). -/
def format_message (cfg : Config) (e : Entry) (env : FormatEnv) :
    (String × Option String) × FormatDelta :=
  let title := baseTitle e
  let description := baseDescription e
  let link := baseLink e
  let original_title := title
  let step :=
    if yagptEnabled cfg then
      match enhance_with_yagpt cfg title description env.yagpt with
      | (some (nt, nd), dErr) =>
        if validOutput nt nd then (nt, nd, 1, dErr)
        else (title, description, 0, dErr)
      | (none, dErr) => (title, description, 0, dErr)
    else (title, description, 0, 0)
  let title := step.1
  let description := trunc500 step.2.1
  let image_title := if title != "" then title else original_title
  let imageStep : Option String × Nat :=
    if image_title != "" then
      (env.image, match env.image with | some _ => 1 | none => 0)
    else (none, 0)
  ((mkMessage title description link, imageStep.1),
    ⟨step.2.2.1, step.2.2.2, imageStep.2⟩)

/-- The module-level `stats` dict.  Timestamps are modelled as optional
abstract instants (`Option Nat`); `None` is `none`. -/
structure Stats where
  startTime : Option Nat
  postsSent : Nat
  lastCheck : Option Nat
  errors : Nat
  lastPost : Option Nat
  yagptUsed : Nat
  yagptErrors : Nat
  imagesGenerated : Nat
deriving DecidableEq, Repr

/-- The initial value of the `stats` dict at module load. -/
def Stats.init : Stats :=
  ⟨none, 0, none, 0, none, 0, 0, 0⟩

/-- The statistics writes performed by `BotController.start` (src/main.py
lines 320-327): `start_time` is set to now, `last_check` to `None`, and the
five counters to zero.  `stats['last_post']` is not written there. -/
def resetOnStart (now : Nat) (s : Stats) : Stats :=
  { s with startTime := some now, lastCheck := none, postsSent := 0,
           errors := 0, yagptUsed := 0, yagptErrors := 0,
           imagesGenerated := 0 }

/-- Applies the statistics increments of one `format_message` call. -/
def applyFormatDelta (s : Stats) (d : FormatDelta) : Stats :=
  { s with yagptUsed := s.yagptUsed + d.yagptUsed,
           yagptErrors := s.yagptErrors + d.yagptErrors,
           imagesGenerated := s.imagesGenerated + d.imagesGenerated }

/-- Which Telegram send primitive a publish call used. -/
inductive PubKind
  | photo
  | text
deriving DecidableEq, Repr

/-- One publish call issued to the channel: `bot.send_photo` or
`bot.send_message`, for the entry with this link. -/
structure PubEvent where
  link : String
  kind : PubKind
deriving DecidableEq, Repr

/-- Number of publish events for a given identifier. -/
def countLink (evs : List PubEvent) (l : String) : Nat :=
  (evs.filter (fun e => e.link == l)).length

/-- The mutable state the worker loop reads and writes: the module-level
`sent_entries` set (as a list of links) and the `stats` dict. -/
structure LoopState where
  sent : List String
  stats : Stats
deriving DecidableEq, Repr

/-- Environment for processing one entry: what `format_message`'s
collaborators do, whether `os.path.exists(image_path)` holds, and whether
`bot.send_photo` / `bot.send_message` complete without raising. -/
structure EntryEnv where
  fmt : FormatEnv
  imageExists : Bool
  photoOk : Bool
  textOk : Bool
deriving DecidableEq, Repr

/-- Embeds the per-entry body of `BotController.rss_loop` (src/main.py lines
370-414).  An entry with no `link` attribute, or whose link is already in
`sent_entries`, is skipped.  Otherwise the entry is formatted; if an image
path was produced and the file exists, `send_photo` is attempted and on its
failure `send_message` is attempted as a fallback; without an image,
`send_message` is attempted directly.  When the publish block completes, the
link is added to `sent_entries`, `posts_sent` is incremented and `last_post`
set; when it raises, the entry-level handler increments `errors` and the
link is not recorded.  The returned list holds the publish calls issued, in
order. -/
def processEntry (cfg : Config) (now : Nat) (st : LoopState) (e : Entry)
    (env : EntryEnv) : LoopState × List PubEvent :=
  match e.link with
  | none => (st, [])
  | some lnk =>
    if lnk ∈ st.sent then (st, [])
    else
      let fm := format_message cfg e env.fmt
      let st1 : LoopState := { st with stats := applyFormatDelta st.stats fm.2 }
      let usePhoto : Bool :=
        (match fm.1.2 with
         | some p => p != ""
         | none => false) && env.imageExists
      let evs : List PubEvent :=
        if usePhoto then
          if env.photoOk then [⟨lnk, .photo⟩]
          else [⟨lnk, .photo⟩, ⟨lnk, .text⟩]
        else [⟨lnk, .text⟩]
      let completed : Bool :=
        if usePhoto then env.photoOk || env.textOk else env.textOk
      if completed then
        ({ st1 with
            sent := lnk :: st1.sent,
            stats := { st1.stats with
                        postsSent := st1.stats.postsSent + 1,
                        lastPost := some now } }, evs)
      else
        ({ st1 with
            stats := { st1.stats with errors := st1.stats.errors + 1 } }, evs)

/-- Processes a list of entries in order, checking the stop signal before
each entry (`if self.stop_event.is_set(): break`). -/
def processEntries (cfg : Config) (now : Nat) (stopEvent : Bool)
    (env : Entry → EntryEnv) : LoopState → List Entry →
    LoopState × List PubEvent
  | st, [] => (st, [])
  | st, e :: rest =>
    if stopEvent then (st, [])
    else
      let r1 := processEntry cfg now st e (env e)
      let r2 := processEntries cfg now stopEvent env r1.1 rest
      (r2.1, r1.2 ++ r2.2)

/-- Outcome of `feedparser.parse(url)` as seen by the per-source `try`
block: either the fetch raised, or it produced a (possibly empty) entry
list. -/
inductive FetchResult
  | failure
  | fetched (entries : List Entry)
deriving DecidableEq, Repr

/-- Embeds the per-source body of `BotController.rss_loop` (src/main.py lines
359-418).  A raising fetch is caught by the per-source handler: `errors` is
incremented and the cycle moves on.  An empty feed is logged as a warning
and skipped (`continue`) with no counter change.  Otherwise at most the
first 10 entries of the list are taken and processed in reverse order. -/
def processSource (cfg : Config) (now : Nat) (stopEvent : Bool)
    (env : Entry → EntryEnv) (st : LoopState) (res : FetchResult) :
    LoopState × List PubEvent :=
  match res with
  | .failure =>
    ({ st with stats := { st.stats with errors := st.stats.errors + 1 } }, [])
  | .fetched es =>
    if es.isEmpty then (st, [])
    else processEntries cfg now stopEvent env st ((es.take 10).reverse)

/-- Embeds the per-cycle sweep over `RSS_URLS` (src/main.py lines 355-418):
sources are processed sequentially, with the stop signal checked before each
source.  The fetch outcome of each source is given as input. -/
def processCycle (cfg : Config) (now : Nat) (stopEvent : Bool)
    (env : Entry → EntryEnv) : LoopState → List FetchResult →
    LoopState × List PubEvent
  | st, [] => (st, [])
  | st, r :: rest =>
    if stopEvent then (st, [])
    else
      let r1 := processSource cfg now stopEvent env st r
      let r2 := processCycle cfg now stopEvent env r1.1 rest
      (r2.1, r1.2 ++ r2.2)

/-- Elapsed time of `threading.Event.wait(timeout)`: returns as soon as the
event is set (`signalAt` is the instant, if any, at which the stop signal
arrives, measured from the start of the wait), else after the full
timeout. -/
def eventWait (signalAt : Option Nat) (timeout : Nat) : Nat :=
  match signalAt with
  | none => timeout
  | some t => min t timeout

/-- Elapsed time of `time.sleep(duration)`: the full duration, regardless of
the stop signal. -/
def timeSleep (signalAt : Option Nat) (duration : Nat) : Nat :=
  let _ := signalAt
  duration

/-- The delay after a successful publish (src/main.py line 410):
`time.sleep(3)`. -/
def interPostDelay (signalAt : Option Nat) : Nat :=
  timeSleep signalAt 3

/-- The wait between cycles (src/main.py line 422):
`self.stop_event.wait(CHECK_INTERVAL)`. -/
def interCycleWait (signalAt : Option Nat) (checkInterval : Nat) : Nat :=
  eventWait signalAt checkInterval

/-- The cooldown after a cycle-level exception (src/main.py line 427):
`time.sleep(30)`. -/
def cycleFailureCooldown (signalAt : Option Nat) : Nat :=
  timeSleep signalAt 30

/-- The wait one `rss_loop` iteration performs at its end: the cooldown when
the iteration body raised, the interruptible inter-cycle wait otherwise
(src/main.py lines 420-427). -/
def rssIterationWait (cycleRaised : Bool) (checkInterval : Nat)
    (signalAt : Option Nat) : Nat :=
  if cycleRaised then cycleFailureCooldown signalAt
  else interCycleWait signalAt checkInterval

/-- The controller state: the `is_running` flag, the `stop_event`, the
number of live worker threads, and the shared `stats`.  Thread spawn and
exit are modelled by the counter: `start` spawns one worker; a worker exits
only when it reaches its loop-condition check
(`while self.is_running and not self.stop_event.is_set()`) and the
condition fails — either within `stop`'s bounded `join(timeout=5.0)` (the
join succeeds) or later, at an `observe` event.  A worker blocked past the
join bound (e.g. in the 30-unit cooldown) survives `stop`. -/
structure CtrlState where
  isRunning : Bool
  stopEvent : Bool
  workers : Nat
  stats : Stats
deriving DecidableEq, Repr

/-- Controller state at construction: stopped, no worker, clear event. -/
def CtrlState.init : CtrlState :=
  ⟨false, false, 0, Stats.init⟩

/-- Embeds `BotController.start` (src/main.py lines 311-329): returns
`False` unchanged when already running; otherwise sets `is_running`, clears
the stop event, spawns the worker thread, performs the statistics writes and
returns `True`. -/
def start (now : Nat) (s : CtrlState) : Bool × CtrlState :=
  if s.isRunning then (false, s)
  else
    (true, { s with isRunning := true, stopEvent := false,
                    workers := s.workers + 1,
                    stats := resetOnStart now s.stats })

/-- Embeds `BotController.stop` (src/main.py lines 331-342): returns `False`
unchanged when not running; otherwise clears `is_running`, sets the stop
event, performs the best-effort `worker_thread.join(timeout=5.0)` and
returns `True` either way.  `joined` says whether the worker reached its
loop-condition check — and hence exited — within the join bound; when the
worker is blocked longer (a slow fetch, the 30-unit cooldown), the join
times out and the worker stays alive. -/
def stop (joined : Bool) (s : CtrlState) : Bool × CtrlState :=
  if !s.isRunning then (false, s)
  else
    (true, { s with isRunning := false, stopEvent := true,
                    workers := if joined then s.workers - 1 else s.workers })

/-- A live worker reaches the loop-condition check of `rss_loop` (src/main.py
line 349): it exits when `is_running` is false or the stop event is set,
and continues otherwise. -/
def observe (s : CtrlState) : CtrlState :=
  if 0 < s.workers && !(s.isRunning && !s.stopEvent) then
    { s with workers := s.workers - 1 }
  else s

/-- Embeds `BotController.status`. -/
def status (s : CtrlState) : Bool :=
  s.isRunning

/-- An event acting on the controller: an operator `start`, an operator
`stop` whose bounded join succeeds or times out, or a live worker reaching
its loop-condition check. -/
inductive Cmd
  | cmdStart (now : Nat)
  | cmdStop (joined : Bool)
  | cmdObserve
deriving DecidableEq, Repr

/-- State transition of one event. -/
def runCmd (s : CtrlState) : Cmd → CtrlState
  | .cmdStart now => (start now s).2
  | .cmdStop joined => (stop joined s).2
  | .cmdObserve => observe s

/-- State after a sequence of commands. -/
def runCmds : CtrlState → List Cmd → CtrlState
  | s, [] => s
  | s, c :: cs => runCmds (runCmd s c) cs

/-- The worker-count invariant maintained while every bounded join
succeeds: one live worker exactly when running, and the stop event is
clear while running (so a worker that checks its loop condition keeps
running). -/
def workerInv (s : CtrlState) : Prop :=
  s.workers = (if s.isRunning then 1 else 0) ∧
    (s.isRunning = true → s.stopEvent = false)

/-- Environments in which every attempted Telegram send completes without
raising (publishes succeed, so no fallback and no retry next cycle). -/
def SendsComplete (env : Entry → EntryEnv) : Prop :=
  ∀ e, (env e).photoOk = true ∧ (env e).textOk = true

/-- Environments in which the image generator never yields a path and text
sends succeed. -/
def NoImages (env : Entry → EntryEnv) : Prop :=
  ∀ e, (env e).fmt.image = none ∧ (env e).textOk = true

/-! ### Helper lemmas -/

theorem countLink_append (a b : List PubEvent) (l : String) :
    countLink (a ++ b) l = countLink a l + countLink b l := by
  simp [countLink, List.filter_append]

theorem countLink_single (lnk : String) (k : PubKind) (l : String) :
    countLink [⟨lnk, k⟩] l = if lnk = l then 1 else 0 := by
  by_cases h : lnk = l <;> simp [countLink, h]

theorem format_message_image_none (cfg : Config) (e : Entry)
    (fenv : FormatEnv) (h : fenv.image = none) :
    (format_message cfg e fenv).1.2 = none := by
  simp [format_message, h]

theorem processEntry_no_link (cfg : Config) (now : Nat) (st : LoopState)
    (e : Entry) (env : EntryEnv) (h : e.link = none) :
    processEntry cfg now st e env = (st, []) := by
  simp [processEntry, h]

theorem processEntry_already_sent (cfg : Config) (now : Nat) (st : LoopState)
    (e : Entry) (env : EntryEnv) (l : String) (h : e.link = some l)
    (hm : l ∈ st.sent) : processEntry cfg now st e env = (st, []) := by
  simp [processEntry, h, hm]

theorem processEntry_fresh (cfg : Config) (now : Nat) (st : LoopState)
    (e : Entry) (env : EntryEnv) (l : String) (h : e.link = some l)
    (hm : l ∉ st.sent) (hp : env.photoOk = true) (ht : env.textOk = true) :
    (processEntry cfg now st e env).1.sent = l :: st.sent ∧
      ∃ k, (processEntry cfg now st e env).2 = [⟨l, k⟩] := by
  simp only [processEntry, h]
  rw [if_neg hm]
  simp only [hp, ht, Bool.or_self, if_pos]
  constructor
  · split <;> rfl
  · split
    · exact ⟨.photo, rfl⟩
    · exact ⟨.text, rfl⟩

theorem processEntry_fresh_text (cfg : Config) (now : Nat) (st : LoopState)
    (e : Entry) (env : EntryEnv) (l : String) (h : e.link = some l)
    (hm : l ∉ st.sent) (hi : env.fmt.image = none) (ht : env.textOk = true) :
    (processEntry cfg now st e env).1.sent = l :: st.sent ∧
      (processEntry cfg now st e env).2 = [⟨l, .text⟩] := by
  have himg : (format_message cfg e env.fmt).1.2 = none :=
    format_message_image_none cfg e env.fmt hi
  simp only [processEntry, h]
  rw [if_neg hm]
  simp [himg, ht]

/-- Monotone growth of the published-identifier set. -/
def SentMono (st st2 : LoopState) : Prop :=
  ∀ x, x ∈ st.sent → x ∈ st2.sent

/-- The deduplication contract of one piece of worker execution that starts
in `st`, issues the publish calls `evs` and ends in `st2`: the sent set only
grows, identifiers already recorded are never published, no identifier is
published more than once, and a published identifier ends up recorded. -/
def DedupRun (st : LoopState) (evs : List PubEvent) (st2 : LoopState) : Prop :=
  SentMono st st2 ∧
    ∀ l, (l ∈ st.sent → countLink evs l = 0) ∧ countLink evs l ≤ 1 ∧
      (1 ≤ countLink evs l → l ∈ st2.sent)

theorem dedupRun_nil (st st2 : LoopState) (h : st.sent = st2.sent) :
    DedupRun st [] st2 := by
  refine ⟨fun x hx => h ▸ hx, fun l => ⟨fun _ => rfl, by simp [countLink], ?_⟩⟩
  intro hc
  simp [countLink] at hc

theorem dedupRun_comp {st st1 st2 : LoopState} {e1 e2 : List PubEvent}
    (h1 : DedupRun st e1 st1) (h2 : DedupRun st1 e2 st2) :
    DedupRun st (e1 ++ e2) st2 := by
  obtain ⟨m1, p1⟩ := h1
  obtain ⟨m2, p2⟩ := h2
  refine ⟨fun x hx => m2 x (m1 x hx), fun l => ?_⟩
  obtain ⟨z1, b1, i1⟩ := p1 l
  obtain ⟨z2, b2, i2⟩ := p2 l
  rw [countLink_append]
  refine ⟨?_, ?_, ?_⟩
  · intro hm
    rw [z1 hm, z2 (m1 l hm)]
  · rcases Nat.eq_zero_or_pos (countLink e1 l) with h0 | hpos
    · rw [h0]
      simpa using b2
    · rw [z2 (i1 hpos)]
      simpa using b1
  · intro hc
    rcases Nat.eq_zero_or_pos (countLink e2 l) with h0 | hpos
    · have h1c : 1 ≤ countLink e1 l := by omega
      exact m2 l (i1 h1c)
    · exact i2 hpos

theorem dedupRun_entry (cfg : Config) (now : Nat) (st : LoopState) (e : Entry)
    (env : EntryEnv) (hp : env.photoOk = true) (ht : env.textOk = true) :
    DedupRun st (processEntry cfg now st e env).2
      (processEntry cfg now st e env).1 := by
  cases hl : e.link with
  | none =>
    rw [processEntry_no_link cfg now st e env hl]
    exact dedupRun_nil st st rfl
  | some l =>
    by_cases hm : l ∈ st.sent
    · rw [processEntry_already_sent cfg now st e env l hl hm]
      exact dedupRun_nil st st rfl
    · obtain ⟨hsent, k, hevs⟩ := processEntry_fresh cfg now st e env l hl hm hp ht
      rw [hevs]
      refine ⟨fun x hx => by rw [hsent]; exact List.mem_cons_of_mem _ hx,
        fun l2 => ?_⟩
      rw [countLink_single]
      by_cases he : l = l2
      · subst he
        exact
          ⟨fun hmem => absurd hmem hm, by simp,
            fun _ => by rw [hsent]; exact List.mem_cons_self _ _⟩
      · simp [he]

theorem dedupRun_entries (cfg : Config) (now : Nat) (se : Bool)
    (env : Entry → EntryEnv) (hb : SendsComplete env) (ls : List Entry) :
    ∀ st : LoopState,
      DedupRun st (processEntries cfg now se env st ls).2
        (processEntries cfg now se env st ls).1 := by
  induction ls with
  | nil =>
    intro st
    exact dedupRun_nil st st rfl
  | cons e rest ih =>
    intro st
    simp only [processEntries]
    by_cases hse : se = true
    · rw [if_pos hse]
      exact dedupRun_nil st st rfl
    · rw [if_neg hse]
      exact dedupRun_comp (dedupRun_entry cfg now st e (env e) (hb e).1 (hb e).2)
        (ih (processEntry cfg now st e (env e)).1)

theorem dedupRun_source (cfg : Config) (now : Nat) (se : Bool)
    (env : Entry → EntryEnv) (hb : SendsComplete env) (st : LoopState)
    (res : FetchResult) :
    DedupRun st (processSource cfg now se env st res).2
      (processSource cfg now se env st res).1 := by
  cases res with
  | failure => exact dedupRun_nil st _ rfl
  | fetched es =>
    by_cases he : es.isEmpty
    · simp only [processSource]
      rw [if_pos he]
      exact dedupRun_nil st st rfl
    · simp only [processSource]
      rw [if_neg he]
      exact dedupRun_entries cfg now se env hb ((es.take 10).reverse) st

theorem dedupRun_cycle (cfg : Config) (now : Nat) (se : Bool)
    (env : Entry → EntryEnv) (hb : SendsComplete env) (srcs : List FetchResult) :
    ∀ st : LoopState,
      DedupRun st (processCycle cfg now se env st srcs).2
        (processCycle cfg now se env st srcs).1 := by
  induction srcs with
  | nil =>
    intro st
    exact dedupRun_nil st st rfl
  | cons r rest ih =>
    intro st
    simp only [processCycle]
    by_cases hse : se = true
    · rw [if_pos hse]
      exact dedupRun_nil st st rfl
    · rw [if_neg hse]
      exact dedupRun_comp (dedupRun_source cfg now se env hb st r)
        (ih (processSource cfg now se env st r).1)

theorem processEntries_order (cfg : Config) (now : Nat)
    (env : Entry → EntryEnv) (h : NoImages env) (ls : List Entry) :
    ∀ st : LoopState, (ls.filterMap Entry.link).Nodup →
      (∀ l ∈ ls.filterMap Entry.link, l ∉ st.sent) →
      (processEntries cfg now false env st ls).2.map PubEvent.link =
        ls.filterMap Entry.link := by
  induction ls with
  | nil =>
    intro st _ _
    rfl
  | cons e rest ih =>
    intro st hnd hf
    simp only [processEntries]
    rw [if_neg (by decide : ¬false = true)]
    cases hl : e.link with
    | none =>
      rw [processEntry_no_link cfg now st e (env e) hl]
      rw [List.filterMap_cons_none hl] at hnd hf ⊢
      simpa using ih st hnd hf
    | some l =>
      rw [List.filterMap_cons_some hl] at hnd hf ⊢
      have hfresh : l ∉ st.sent := hf l (List.mem_cons_self l _)
      obtain ⟨hsent, hevs⟩ :=
        processEntry_fresh_text cfg now st e (env e) l hl hfresh (h e).1 (h e).2
      rw [hevs]
      have hnd2 := (List.nodup_cons.mp hnd).2
      have hlnotin := (List.nodup_cons.mp hnd).1
      have hf2 : ∀ l2 ∈ rest.filterMap Entry.link,
          l2 ∉ (processEntry cfg now st e (env e)).1.sent := by
        intro l2 hl2
        rw [hsent]
        intro hmem
        rcases List.mem_cons.mp hmem with hh | hh
        · exact hlnotin (hh ▸ hl2)
        · exact hf l2 (List.mem_cons_of_mem _ hl2) hh
      simpa using ih (processEntry cfg now st e (env e)).1 hnd2 hf2

theorem workerInv_runCmd (s : CtrlState) (c : Cmd) (h : workerInv s)
    (hj : c ≠ .cmdStop false) : workerInv (runCmd s c) := by
  obtain ⟨hw, hf⟩ := h
  cases c with
  | cmdStart now =>
    simp only [runCmd, start]
    by_cases hr : s.isRunning
    · simpa [hr] using ⟨hw, hf⟩
    · simp only [hr, if_false] at hw
      simp [workerInv, hr, hw]
  | cmdStop joined =>
    cases joined with
    | false => exact absurd rfl hj
    | true =>
      simp only [runCmd, stop]
      by_cases hr : s.isRunning
      · simp only [hr, if_true] at hw
        simp [workerInv, hr, hw]
      · simpa [hr] using ⟨hw, hf⟩
  | cmdObserve =>
    simp only [runCmd, observe]
    by_cases hr : s.isRunning
    · rw [hf hr]
      simp only [hr]
      simpa using ⟨hw, hf⟩
    · simp only [hr, if_false] at hw
      simp [workerInv, hr, hw, hf]

theorem workerInv_runCmds (cmds : List Cmd) (hj : Cmd.cmdStop false ∉ cmds) :
    ∀ s : CtrlState, workerInv s → workerInv (runCmds s cmds) := by
  induction cmds with
  | nil => exact fun s h => h
  | cons c cs ih =>
    intro s h
    have hc : c ≠ .cmdStop false := fun he => hj (by rw [← he]; exact List.mem_cons_self c cs)
    have hcs : Cmd.cmdStop false ∉ cs := fun hm => hj (List.mem_cons_of_mem c hm)
    exact ih hcs (runCmd s c) (workerInv_runCmd s c h hc)

/-! ### Concrete example values used by counterexamples and witnesses -/

/-- Configuration with the enhancer disabled (`DISABLE_YAGPT=true`). -/
def exCfgDisabled : Config := ⟨true, none, ""⟩

/-- Configuration with the enhancer enabled. -/
def exCfgEnabled : Config := ⟨false, some "key", "folder"⟩

/-- Empty worker state: nothing published, fresh statistics. -/
def exSt : LoopState := ⟨[], Stats.init⟩

/-- A well-formed entry with link "a". -/
def exEntryA : Entry := ⟨some "T", some "D", some "a"⟩

/-- A well-formed entry with link "l". -/
def exEntryL : Entry := ⟨some "T", some "D", some "l"⟩

/-- Entries for the three-entry ordering scenario (newest first). -/
def exEntry1 : Entry := ⟨some "t1", some "d1", some "l1"⟩

def exEntry2 : Entry := ⟨some "t2", some "d2", some "l2"⟩

def exEntry3 : Entry := ⟨some "t3", some "d3", some "l3"⟩

/-- Environment in which an image is generated and exists but `send_photo`
raises while the `send_message` fallback succeeds. -/
def exEnvPhotoFail : EntryEnv := ⟨⟨.requestError, some "img.jpg"⟩, true, false, true⟩

/-- Environment with no image and reliable text sends. -/
def exEnvText : EntryEnv := ⟨⟨.requestError, none⟩, false, true, true⟩

/-! ### Claim theorems -/

/-- C1, counterexample: with entry "a" fresh, an image generated and present,
`send_photo` raising and the `send_message` fallback succeeding, the worker
issues two publish calls for the same identifier "a" within the processing of
this one entry — first the photo publish, then the text fallback — refuting
"a publish is issued at most once ... no identifier is ever published twice,
including within the processing of one entry". -/
theorem photo_fallback_publishes_twice :
    countLink (processEntry exCfgDisabled 0 exSt exEntryA exEnvPhotoFail).2 "a" = 2 ∧
      (processEntry exCfgDisabled 0 exSt exEntryA exEnvPhotoFail).2 =
        [⟨"a", .photo⟩, ⟨"a", .text⟩] := by
  constructor <;> rfl

/-- C1, amended: an entry is skipped when its link is already in the sent
set or when it has no link; and as long as every attempted send completes
(so the photo-failure text fallback never fires and entries are recorded
after their publish), no identifier has a publish issued more than once in
a cycle. -/
theorem publish_at_most_once_per_link :
    (∀ cfg now st e env l, e.link = some l → l ∈ st.sent →
        processEntry cfg now st e env = (st, [])) ∧
      (∀ cfg now st e env, e.link = none →
          processEntry cfg now st e env = (st, [])) ∧
      (∀ cfg now se env st srcs, SendsComplete env →
          ∀ l, countLink (processCycle cfg now se env st srcs).2 l ≤ 1) := by
  refine ⟨fun cfg now st e env l h hm =>
      processEntry_already_sent cfg now st e env l h hm,
    fun cfg now st e env h => processEntry_no_link cfg now st e env h, ?_⟩
  intro cfg now se env st srcs hb l
  exact ((dedupRun_cycle cfg now se env hb srcs st).2 l).2.1

/-- C1 witness. -/
theorem publish_at_most_once_per_link_witness :
    processEntry exCfgDisabled 0 ⟨["a"], Stats.init⟩ exEntryA exEnvText =
        (⟨["a"], Stats.init⟩, []) ∧
      processEntry exCfgDisabled 0 exSt ⟨some "t", none, none⟩ exEnvText =
        (exSt, []) ∧
      countLink
        (processCycle exCfgDisabled 0 false (fun _ => exEnvText) exSt
          [.failure, .fetched [exEntryA, exEntryA]]).2 "a" ≤ 1 := by
  refine ⟨?_, ?_, ?_⟩
  · exact publish_at_most_once_per_link.1 exCfgDisabled 0 _ exEntryA exEnvText
      "a" rfl (by decide)
  · exact publish_at_most_once_per_link.2.1 exCfgDisabled 0 exSt _ exEnvText rfl
  · exact publish_at_most_once_per_link.2.2 exCfgDisabled 0 false
      (fun _ => exEnvText) exSt [.failure, .fetched [exEntryA, exEntryA]]
      (fun _ => ⟨rfl, rfl⟩) "a"

/-- C3: for a fetched source, only the first 10 entries of the returned list
are considered, and publishes happen in reverse list order (oldest first):
the event sequence is exactly the link sequence of `(entries.take 10).reverse`
(entries whose links were seen before or that lack links are assumed fresh
and present here via the hypotheses). -/
theorem entries_published_oldest_first (cfg : Config) (now : Nat)
    (env : Entry → EntryEnv) (st : LoopState) (es : List Entry)
    (h : NoImages env)
    (hnd : (((es.take 10).reverse).filterMap Entry.link).Nodup)
    (hf : ∀ l ∈ ((es.take 10).reverse).filterMap Entry.link, l ∉ st.sent) :
    (processSource cfg now false env st (.fetched es)).2.map PubEvent.link =
      ((es.take 10).reverse).filterMap Entry.link := by
  cases es with
  | nil => rfl
  | cons e rest =>
    simp only [processSource]
    rw [if_neg (by simp : ¬(e :: rest).isEmpty = true)]
    exact processEntries_order cfg now env h (((e :: rest).take 10).reverse) st hnd hf

/-- C3 witness: a source returning `[E1(newest), E2, E3(oldest)]` yields the
publish sequence `E3, E2, E1`. -/
theorem entries_published_oldest_first_witness :
    (processSource exCfgDisabled 0 false (fun _ => exEnvText) exSt
        (.fetched [exEntry1, exEntry2, exEntry3])).2.map PubEvent.link =
      ["l3", "l2", "l1"] := by
  have h := entries_published_oldest_first exCfgDisabled 0 (fun _ => exEnvText)
    exSt [exEntry1, exEntry2, exEntry3] (fun _ => ⟨rfl, rfl⟩) (by decide)
    (by decide)
  exact h.trans (by decide)

/-- C4: a fetch failure is absorbed at the source level — the cycle
increments `errors` once for that source and continues with the remaining
sources unchanged; concretely, with two sources where the first raises and
the second returns one new valid entry, that entry is still published and
`errors` ends at exactly 1. -/
theorem fetch_failure_isolated :
    (∀ cfg now env st rest,
        processCycle cfg now false env st (.failure :: rest) =
          processCycle cfg now false env
            ⟨st.sent, { st.stats with errors := st.stats.errors + 1 }⟩ rest) ∧
      processCycle exCfgDisabled 0 false (fun _ => exEnvText) exSt
          [.failure, .fetched [exEntryL]] =
        (⟨["l"], ⟨none, 1, none, 1, some 0, 0, 0, 0⟩⟩, [⟨"l", .text⟩]) := by
  constructor
  · intro cfg now env st rest
    rfl
  · rfl

/-- C2, counterexample: the bounded join of `stop()` is best-effort.  After
`start()`, a `stop()` whose worker is blocked past the 5-second join bound
(e.g. inside the 30-unit cooldown) leaves the worker alive, and a
subsequent `start()` re-sets `is_running`, clears `stop_event` and spawns a
second worker: two live worker execution contexts.  The surviving worker's
next loop-condition check passes (running, event clear), so it does not
exit — refuting "at most one worker execution context exists at any
time". -/
theorem two_workers_after_timed_out_join :
    (runCmds CtrlState.init [.cmdStart 0, .cmdStop false, .cmdStart 1]).workers = 2 ∧
      (runCmds CtrlState.init
        [.cmdStart 0, .cmdStop false, .cmdStart 1, .cmdObserve]).workers = 2 := by
  constructor <;> rfl

/-- C2, amended: `start()` on a running controller returns `False` and
changes nothing (no second worker is spawned); on a stopped controller it
clears the stop event, transitions to running, spawns exactly one worker
and returns `True`.  `stop()` on a stopped controller returns `False`
unchanged; on a running one it signals the worker and returns `True`.  At
most one live worker exists provided every `stop()`'s bounded join
succeeds (every stopped worker observes the signal in time); a timed-out
join followed by `start()` yields two. -/
theorem start_stop_exclusive :
    (∀ now s, s.isRunning = true → start now s = (false, s)) ∧
      (∀ now s, s.isRunning = false →
          start now s =
            (true, { s with isRunning := true, stopEvent := false,
                            workers := s.workers + 1,
                            stats := resetOnStart now s.stats })) ∧
      (∀ j s, s.isRunning = false → stop j s = (false, s)) ∧
      (∀ j s, s.isRunning = true →
          (stop j s).1 = true ∧ (stop j s).2.stopEvent = true ∧
            (stop j s).2.isRunning = false) ∧
      (∀ cmds, Cmd.cmdStop false ∉ cmds →
          (runCmds CtrlState.init cmds).workers ≤ 1) := by
  refine ⟨?_, ?_, ?_, ?_, ?_⟩
  · intro now s h
    simp [start, h]
  · intro now s h
    simp [start, h]
  · intro j s h
    simp [stop, h]
  · intro j s h
    simp [stop, h]
  · intro cmds hj
    have h := workerInv_runCmds cmds hj CtrlState.init
      (by simp [workerInv, CtrlState.init])
    rw [h.1]
    split <;> omega

/-- C2 witness. -/
theorem start_stop_exclusive_witness :
    start 0 (⟨true, false, 1, Stats.init⟩ : CtrlState) =
        (false, ⟨true, false, 1, Stats.init⟩) ∧
      start 5 CtrlState.init =
        (true, ⟨true, false, 1, resetOnStart 5 Stats.init⟩) ∧
      stop true CtrlState.init = (false, CtrlState.init) ∧
      (stop true (⟨true, false, 1, Stats.init⟩ : CtrlState)).1 = true ∧
      (runCmds CtrlState.init
        [.cmdStart 0, .cmdStart 1, .cmdStop true, .cmdObserve]).workers ≤ 1 := by
  refine ⟨start_stop_exclusive.1 0 _ rfl, ?_,
    start_stop_exclusive.2.2.1 true _ rfl,
    (start_stop_exclusive.2.2.2.1 true _ rfl).1,
    start_stop_exclusive.2.2.2.2
      [.cmdStart 0, .cmdStart 1, .cmdStop true, .cmdObserve] (by decide)⟩
  exact (start_stop_exclusive.2.1 5 CtrlState.init rfl).trans (by rfl)

/-- C5, counterexample: after `stop()` then `start()`, `stats['last_post']`
still holds the previous run's value (here `some 7`) — it is neither zeroed
nor cleared, refuting "every RunStats field ... and the timestamps
startTime, lastCheck, lastPost is reset". -/
theorem lastPost_not_reset_on_start :
    (start 10 (stop true ⟨true, false, 1, ⟨some 0, 5, some 3, 2, some 7, 1, 1, 4⟩⟩).2).2.stats.lastPost =
        some 7 ∧
      (start 10 (stop true ⟨true, false, 1, ⟨some 0, 5, some 3, 2, some 7, 1, 1, 4⟩⟩).2).2.stats.lastPost ≠
        none := by
  constructor <;> decide

/-- C5, amended: on every Stopped→Running transition via `start()`, the
counters `postsSent`, `errors`, `imagesGenerated`, `yagptUsed`,
`yagptErrors` are reset to zero, `startTime` is re-initialized to now and
`lastCheck` is cleared — but `lastPost` retains the value accumulated by
the prior run. -/
theorem stats_reset_on_start_except_lastPost (now : Nat) (s : CtrlState)
    (h : s.isRunning = false) :
    (start now s).2.stats =
      ⟨some now, 0, none, 0, s.stats.lastPost, 0, 0, 0⟩ := by
  simp [start, h, resetOnStart]

/-- C5 witness. -/
theorem stats_reset_on_start_except_lastPost_witness :
    (start 10 (⟨false, true, 0, ⟨some 0, 5, some 3, 2, some 7, 1, 1, 4⟩⟩ : CtrlState)).2.stats =
      ⟨some 10, 0, none, 0, some 7, 0, 0, 0⟩ :=
  stats_reset_on_start_except_lastPost 10
    ⟨false, true, 0, ⟨some 0, 5, some 3, 2, some 7, 1, 1, 4⟩⟩ rfl

/-- C8, counterexample: the cooldown after a cycle-level failure is
`time.sleep(30)`: even with the stop signal already set (arriving at
instant 0), the full 30 units elapse — the wait does not return early,
while the inter-cycle wait of a non-failing iteration with the same signal
returns immediately. -/
theorem cooldown_not_interruptible :
    rssIterationWait true 300 (some 0) = 30 ∧
      ¬rssIterationWait true 300 (some 0) < 30 ∧
      rssIterationWait false 300 (some 0) = 0 := by
  refine ⟨rfl, by decide, rfl⟩

/-- C8, amended: of the worker's programmed pauses, only the inter-cycle
wait (`stop_event.wait(CHECK_INTERVAL)`) is responsive to the stop signal
and returns as soon as it arrives; the fixed inter-post delay
(`time.sleep(3)`) and the post-failure cooldown (`time.sleep(30)`) always
elapse in full regardless of the signal. -/
theorem wait_responsiveness :
    (∀ t ci, interCycleWait (some t) ci = min t ci) ∧
      (∀ ci, interCycleWait none ci = ci) ∧
      (∀ sig, cycleFailureCooldown sig = 30) ∧
      (∀ sig, interPostDelay sig = 3) ∧
      (∀ ci sig, rssIterationWait true ci sig = 30) ∧
      (∀ ci sig, rssIterationWait false ci sig = eventWait sig ci) :=
  ⟨fun _ _ => rfl, fun _ => rfl, fun _ => rfl, fun _ => rfl, fun _ _ => rfl,
    fun _ _ => rfl⟩

/-- C9, counterexample: a fetch yielding no entries leaves the worker state
— in particular the `errors` counter — completely unchanged; `errors` is
not incremented, refuting "it is logged and counted (the errors counter is
incremented)". -/
theorem empty_feed_does_not_increment_errors :
    (processSource exCfgDisabled 0 false (fun _ => exEnvText) exSt
          (.fetched [])).1.stats.errors ≠ exSt.stats.errors + 1 ∧
      processSource exCfgDisabled 0 false (fun _ => exEnvText) exSt
          (.fetched []) = (exSt, []) := by
  constructor <;> decide

/-- C9, amended: a fetch yielding no entries is logged as a warning and the
source is skipped with no state change at all — no counter is touched, no
publish is issued — and the cycle continues with the next source. -/
theorem empty_feed_skipped_without_error :
    (∀ cfg now se env st,
        processSource cfg now se env st (.fetched []) = (st, [])) ∧
      (∀ cfg now se env st rest,
          processCycle cfg now se env st ((FetchResult.fetched []) :: rest) =
            processCycle cfg now se env st rest) := by
  constructor
  · intro cfg now se env st
    rfl
  · intro cfg now se env st rest
    cases se with
    | false =>
      cases rest with
      | nil => rfl
      | cons r rs => rfl
    | true =>
      cases rest with
      | nil => rfl
      | cons r rs => rfl

theorem validOutput_iff (nt nd : String) :
    validOutput nt nd = true ↔
      (10 < nt.length ∧ 30 < nd.length ∧ nt.length < 120 ∧ nd.length < 600) := by
  constructor
  · intro h
    simp only [validOutput, Bool.and_eq_true, bne_iff_ne, ne_eq,
      decide_eq_true_eq] at h
    tauto
  · rintro ⟨h1, h2, h3, h4⟩
    have hnt : nt ≠ "" := by
      intro he
      rw [he] at h1
      simp at h1
    have hnd2 : nd ≠ "" := by
      intro he
      rw [he] at h2
      simp at h2
    simp [validOutput, hnt, hnd2, h1, h2, h3, h4]

/-- An entry with nonempty title, description and link "L". -/
def exEntryRich : Entry := ⟨some "Original headline", some "Original description", some "L"⟩

/-- A candidate description of 40 characters (inside the (30, 600) band). -/
def exDescOk : String := "1234567890123456789012345678901234567890"

/-- C6: with the enhancer enabled and returning a candidate `(nt, nd)`, the
candidate is rejected — the message keeps the original title and the
original (truncated) description, and `yagpt_used` is not incremented —
unless `nt` is strictly between 10 and 120 characters and `nd` strictly
between 30 and 600; when the bounds hold, title and description are both
replaced and `yagpt_used` is incremented once. -/
theorem enhancement_validation_bounds (cfg : Config) (e : Entry)
    (fenv : FormatEnv) (nt nd : String) (hen : yagptEnabled cfg = true)
    (henv : fenv.yagpt = .parsed (some nt) (some nd)) :
    (¬(10 < nt.length ∧ 30 < nd.length ∧ nt.length < 120 ∧ nd.length < 600) →
        (format_message cfg e fenv).1.1 =
            mkMessage (baseTitle e) (trunc500 (baseDescription e)) (baseLink e) ∧
          (format_message cfg e fenv).2.yagptUsed = 0) ∧
      ((10 < nt.length ∧ 30 < nd.length ∧ nt.length < 120 ∧ nd.length < 600) →
        (format_message cfg e fenv).1.1 =
            mkMessage nt (trunc500 nd) (baseLink e) ∧
          (format_message cfg e fenv).2.yagptUsed = 1) := by
  have hstep : enhance_with_yagpt cfg (baseTitle e) (baseDescription e) fenv.yagpt
      = (some (nt, nd), 0) := by
    rw [henv]
    simp [enhance_with_yagpt, hen]
  by_cases hb : validOutput nt nd = true
  · have hprop := (validOutput_iff nt nd).mp hb
    refine ⟨fun hn => absurd hprop hn, fun _ => ?_⟩
    constructor <;> simp [format_message, hen, hstep, hb]
  · have hv : validOutput nt nd = false := by simpa using hb
    have hprop :
        ¬(10 < nt.length ∧ 30 < nd.length ∧ nt.length < 120 ∧ nd.length < 600) :=
      fun hp => hb ((validOutput_iff nt nd).mpr hp)
    refine ⟨fun _ => ?_, fun hp => absurd hp hprop⟩
    constructor <;> simp [format_message, hen, hstep, hv]

/-- C6 witness: an enhancer title of length 5 (below the 10-char floor) is
rejected — original title kept, `yagpt_used` untouched. -/
theorem enhancement_validation_bounds_witness :
    (format_message exCfgEnabled exEntryRich
          ⟨.parsed (some "short") (some exDescOk), none⟩).1.1 =
        mkMessage (baseTitle exEntryRich) (trunc500 (baseDescription exEntryRich))
          (baseLink exEntryRich) ∧
      (format_message exCfgEnabled exEntryRich
          ⟨.parsed (some "short") (some exDescOk), none⟩).2.yagptUsed = 0 :=
  (enhancement_validation_bounds exCfgEnabled exEntryRich
    ⟨.parsed (some "short") (some exDescOk), none⟩ "short" exDescOk rfl rfl).1
    (by decide)

/-- C7, counterexample: a missing-JSON-object response and a JSON-decode
failure both return `None` without touching `yagpt_errors`, and a
validation rejection (title of length 5) leaves `yagpt_errors` at 0 —
refuting "every enhancement failure (network, parse, validation) increments
the yagptErrors counter". -/
theorem parse_and_validation_failures_not_counted :
    enhance_with_yagpt exCfgEnabled "t" "d" .noBraces = (none, 0) ∧
      enhance_with_yagpt exCfgEnabled "t" "d" .decodeError = (none, 0) ∧
      (format_message exCfgEnabled exEntryRich
          ⟨.parsed (some "short") (some exDescOk), none⟩).2.yagptErrors = 0 :=
  ⟨rfl, rfl, rfl⟩

/-- C7, amended: a failing request and an unexpected processing error each
increment `yagpt_errors` by one; a response without a JSON object and a
JSON-decode failure return `None` without incrementing it; validation
rejection also leaves it untouched (the counter change of `format_message`
equals that of the `enhance_with_yagpt` call); and every failure falls back
silently to the original text. -/
theorem yagpt_error_accounting (cfg : Config) (t d : String)
    (hen : yagptEnabled cfg = true) :
    enhance_with_yagpt cfg t d .requestError = (none, 1) ∧
      enhance_with_yagpt cfg t d .processingError = (none, 1) ∧
      enhance_with_yagpt cfg t d .noBraces = (none, 0) ∧
      enhance_with_yagpt cfg t d .decodeError = (none, 0) ∧
      (∀ e fenv, (format_message cfg e fenv).2.yagptErrors =
          (enhance_with_yagpt cfg (baseTitle e) (baseDescription e) fenv.yagpt).2) ∧
      (∀ e fenv,
          (enhance_with_yagpt cfg (baseTitle e) (baseDescription e) fenv.yagpt).1 =
              none →
            (format_message cfg e fenv).1.1 =
              mkMessage (baseTitle e) (trunc500 (baseDescription e)) (baseLink e)) := by
  refine ⟨by simp [enhance_with_yagpt, hen], by simp [enhance_with_yagpt, hen],
    by simp [enhance_with_yagpt, hen], by simp [enhance_with_yagpt, hen], ?_, ?_⟩
  · intro e fenv
    rcases henh : enhance_with_yagpt cfg (baseTitle e) (baseDescription e)
      fenv.yagpt with ⟨o, n⟩
    cases o with
    | none => simp [format_message, hen, henh]
    | some p =>
      rcases p with ⟨nt, nd⟩
      rcases Bool.eq_false_or_eq_true (validOutput nt nd) with hv | hv <;>
        simp [format_message, hen, henh, hv]
  · intro e fenv h
    rcases henh : enhance_with_yagpt cfg (baseTitle e) (baseDescription e)
      fenv.yagpt with ⟨o, n⟩
    rw [henh] at h
    cases o with
    | none => simp [format_message, hen, henh]
    | some p => exact Option.noConfusion h

/-- C7 witness. -/
theorem yagpt_error_accounting_witness :
    enhance_with_yagpt exCfgEnabled "t" "d" .requestError = (none, 1) ∧
      enhance_with_yagpt exCfgEnabled "t" "d" .decodeError = (none, 0) ∧
      (format_message exCfgEnabled exEntryL ⟨.decodeError, none⟩).1.1 =
        mkMessage (baseTitle exEntryL) (trunc500 (baseDescription exEntryL))
          (baseLink exEntryL) := by
  have h := yagpt_error_accounting exCfgEnabled "t" "d" rfl
  exact ⟨h.1, h.2.2.2.1, h.2.2.2.2.2 exEntryL ⟨.decodeError, none⟩ rfl⟩

/-- C10: `format_message` is total over missing optional attributes: an
entry with no title, description or link is treated exactly like one with
title "No title", description "" and link "", and with enhancement disabled
the produced message is the template applied to those defaults (a
`(message, image-path-or-absent)` pair is always returned). -/
theorem format_message_defaults_total :
    (∀ cfg fenv,
        format_message cfg ⟨none, none, none⟩ fenv =
          format_message cfg ⟨some "No title", some "", some ""⟩ fenv) ∧
      (∀ fenv,
          (format_message exCfgDisabled ⟨none, none, none⟩ fenv).1.1 =
            mkMessage "No title" "" "") := by
  constructor
  · intro cfg fenv
    rfl
  · intro fenv
    rfl

end RssBot
